import Mathlib

/-!
Verification of the HTTP load tester core.

Shallow embedding of:
  - app/load_test_stats.py  (LoadTestStats: add_result, calculate_stats)
  - app/load_tester.py      (HTTPLoadTester: make_request, generate_load,
                             find_breaking_point)

Python floats are modelled as rationals; Python dicts (insertion-ordered) as
association lists; the aiohttp transport as an oracle giving each attempt's
outcome and timing; wall-clock time as an explicit rational clock threaded
through the model (each sleep and each transport step advances it by exactly
its stated duration, everything else is instantaneous).
-/

namespace LoadTester

/-- Python str.startswith on the character sequences of the two strings. -/
def charsStartsWith : List Char → List Char → Bool
  | _, [] => true
  | [], _ :: _ => false
  | c :: cs, d :: ds => c == d && charsStartsWith cs ds

/-- Python `s.startswith(p)`. -/
def startswith (s p : String) : Bool :=
  charsStartsWith s.data p.data

/-- The attribute set written by `LoadTestStats.__init__`.  `results` is a
`defaultdict(list)` mapping classification strings to latency lists, modelled
as an insertion-ordered association list.  Note that `__init__` defines no
`error_set` attribute (relevant to `make_request`'s exhaustion path). -/
structure LoadTestStats where
  results : List (String × List ℚ)
  total_requests : Nat
  total_errors : Nat
  error_rate : ℚ
  status_distribution : List (String × Nat)
  mean_latency : ℚ
  median_latency : ℚ
  min_latency : ℚ
  max_latency : ℚ
  deriving Repr, DecidableEq

/-- `LoadTestStats.__init__`: empty results, zero counters, `-1` sentinels. -/
def LoadTestStats.init : LoadTestStats :=
  { results := []
    total_requests := 0
    total_errors := 0
    error_rate := 0
    status_distribution := []
    mean_latency := -1
    median_latency := -1
    min_latency := -1
    max_latency := -1 }

/-- Append a latency under a classification key in an insertion-ordered
association list: `self.results[status].append(latency)` on a
`defaultdict(list)` (a missing key is created at the end). -/
def appendSample : List (String × List ℚ) → String → ℚ → List (String × List ℚ)
  | [], status, latency => [(status, [latency])]
  | (k, vs) :: rest, status, latency =>
    if k = status then (k, vs ++ [latency]) :: rest
    else (k, vs) :: appendSample rest status latency

/-- `LoadTestStats.add_result`. -/
def LoadTestStats.add_result (s : LoadTestStats) (status : String) (latency : ℚ) :
    LoadTestStats :=
  { s with results := appendSample s.results status latency }

/-- `statistics.mean`: sum divided by length. -/
def mean (l : List ℚ) : ℚ := l.sum / l.length

/-- Insert into a sorted list (used to model `sorted`). -/
def insertSorted (x : ℚ) : List ℚ → List ℚ
  | [] => [x]
  | y :: ys => if x ≤ y then x :: y :: ys else y :: insertSorted x ys

/-- Python `sorted` on a list of numbers. -/
def sortLatencies (l : List ℚ) : List ℚ := l.foldr insertSorted []

/-- `statistics.median`: middle element of the sorted list, or the average of
the two middle elements when the length is even. -/
def median (l : List ℚ) : ℚ :=
  let s := sortLatencies l
  let n := s.length
  if n % 2 = 1 then s.getD (n / 2) 0
  else (s.getD (n / 2 - 1) 0 + s.getD (n / 2) 0) / 2

/-- Python `min` over a nonempty list (arbitrary value on `[]`, which the
source never reaches because it guards on nonemptiness). -/
def listMin : List ℚ → ℚ
  | [] => 0
  | x :: xs => xs.foldl min x

/-- Python `max` over a nonempty list (arbitrary value on `[]`). -/
def listMax : List ℚ → ℚ
  | [] => 0
  | x :: xs => xs.foldl max x

/-- The error test in `calculate_stats`:
`status.startswith('4') or status.startswith('5') or status == 'error'`. -/
def is_error_classification (status : String) : Bool :=
  startswith status "4" || startswith status "5" || status == "error"

/-- `LoadTestStats.calculate_stats`: recomputes all derived fields from
`results`.  The pooled latency list is the concatenation of all buckets in
insertion order; the four latency statistics are only assigned when the pooled
list is nonempty (`if all_latencies:`), otherwise they keep their prior
values. -/
def LoadTestStats.calculate_stats (s : LoadTestStats) : LoadTestStats :=
  let all_latencies : List ℚ := (s.results.map Prod.snd).flatten
  let total_errors : Nat :=
    s.results.foldl
      (fun acc p => if is_error_classification p.1 then acc + p.2.length else acc) 0
  let total_requests : Nat := all_latencies.length
  { s with
    total_requests := total_requests
    total_errors := total_errors
    error_rate :=
      if 0 < total_requests then (total_errors : ℚ) / (total_requests : ℚ) else 0
    status_distribution := s.results.map fun p => (p.1, p.2.length)
    mean_latency :=
      if all_latencies.isEmpty then s.mean_latency else mean all_latencies
    median_latency :=
      if all_latencies.isEmpty then s.median_latency else median all_latencies
    min_latency :=
      if all_latencies.isEmpty then s.min_latency else listMin all_latencies
    max_latency :=
      if all_latencies.isEmpty then s.max_latency else listMax all_latencies }

/-- The sample set of the spec's worked example, built through `add_result`:
samples 200 -> [0.1, 0.2, 0.3], 404 -> [0.4, 0.5], error -> [0.6]. -/
def exampleSamples : LoadTestStats :=
  ((((((LoadTestStats.init.add_result "200" (1/10)).add_result "200" (2/10)).add_result
      "200" (3/10)).add_result "404" (4/10)).add_result "404" (5/10)).add_result
      "error" (6/10))

/-- The spec example after finalization. -/
def exampleRun : LoadTestStats := exampleSamples.calculate_stats

lemma foldl_error_count (l : List (String × List ℚ)) (a : Nat) :
    l.foldl (fun acc p => if is_error_classification p.1 then acc + p.2.length else acc) a
      = a + (l.map fun p => if is_error_classification p.1 then p.2.length else 0).sum := by
  induction l generalizing a with
  | nil => simp
  | cons x xs ih =>
    by_cases h : is_error_classification x.1 <;> simp [h, ih] <;> omega

lemma exampleSamples_results :
    exampleSamples.results =
      [("200", [1/10, 2/10, 3/10]), ("404", [4/10, 5/10]), ("error", [6/10])] := by
  simp [exampleSamples, LoadTestStats.add_result, LoadTestStats.init, appendSample]

lemma example_concrete :
    exampleRun.total_requests = 6 ∧ exampleRun.total_errors = 3 ∧
      exampleRun.error_rate = 1/2 ∧ exampleRun.mean_latency = 7/20 ∧
      exampleRun.median_latency = 7/20 ∧ exampleRun.min_latency = 1/10 ∧
      exampleRun.max_latency = 6/10 := by
  have h1 : is_error_classification "200" = false := by decide
  have h2 : is_error_classification "404" = true := by decide
  have h3 : is_error_classification "error" = true := by decide
  simp only [exampleRun, LoadTestStats.calculate_stats, exampleSamples_results]
  norm_num [h1, h2, h3, mean, median, sortLatencies, insertSorted, listMin, listMax,
    min_def, max_def, List.getD]

/-- Claim C1: after `calculate_stats`, `total_requests` is the sum of the
bucket sizes, `total_errors` counts exactly the samples whose classification
starts with "4", starts with "5", or equals "error", and `error_rate` is
`total_errors / total_requests` (0 when there are no requests); on the spec's
worked example the derived values are total_requests = 6, total_errors = 3,
error_rate = 0.5, mean = 0.35, median = 0.35, min = 0.1, max = 0.6. -/
theorem C1_calculate_stats_totals :
    (∀ s : LoadTestStats,
      s.calculate_stats.total_requests = (s.results.map fun p => p.2.length).sum ∧
      s.calculate_stats.total_errors
        = (s.results.map fun p => if is_error_classification p.1 then p.2.length else 0).sum ∧
      s.calculate_stats.error_rate
        = (if s.calculate_stats.total_requests = 0 then 0
           else (s.calculate_stats.total_errors : ℚ) / (s.calculate_stats.total_requests : ℚ))) ∧
    (exampleRun.total_requests = 6 ∧ exampleRun.total_errors = 3 ∧
      exampleRun.error_rate = 1/2 ∧ exampleRun.mean_latency = 7/20 ∧
      exampleRun.median_latency = 7/20 ∧ exampleRun.min_latency = 1/10 ∧
      exampleRun.max_latency = 6/10) := by
  constructor
  · intro s
    refine ⟨?_, ?_, ?_⟩
    · simp [LoadTestStats.calculate_stats, List.length_flatten, List.map_map,
        Function.comp_def]
    · simp [LoadTestStats.calculate_stats, foldl_error_count]
    · simp only [LoadTestStats.calculate_stats]
      split_ifs with h1 h2 h2 <;> first | rfl | omega
  · exact example_concrete

/-- Claim C7: finalizing a fresh aggregator with zero recorded samples never
raises (the embedding is a total function and the division is guarded):
`error_rate` is 0 and the four latency statistics keep the `-1` sentinel,
which is negative and hence distinguishable from any real latency. -/
theorem C7_empty_samples_sentinels :
    LoadTestStats.init.calculate_stats.error_rate = 0 ∧
    LoadTestStats.init.calculate_stats.mean_latency = -1 ∧
    LoadTestStats.init.calculate_stats.median_latency = -1 ∧
    LoadTestStats.init.calculate_stats.min_latency = -1 ∧
    LoadTestStats.init.calculate_stats.max_latency = -1 ∧
    ((-1 : ℚ) < 0) := by
  norm_num [LoadTestStats.calculate_stats, LoadTestStats.init]

/-- Claim C8: `calculate_stats` is a deterministic pure function of the
recorded samples; running it twice with no intervening `add_result` yields
the same aggregator state as running it once (idempotence). -/
theorem C8_calculate_stats_idempotent (s : LoadTestStats) :
    s.calculate_stats.calculate_stats = s.calculate_stats := by
  by_cases h : ((s.results.map Prod.snd).flatten).isEmpty <;>
    simp [LoadTestStats.calculate_stats, h]

/-- Claim C10: `calculate_stats` does not modify the recorded samples — the
`results` mapping (all classification keys and each bucket's latency
sequence) is identical before and after; only derived fields are written. -/
theorem C10_calculate_stats_preserves_results (s : LoadTestStats) :
    s.calculate_stats.results = s.results := rfl

/-! ## The request executor: `HTTPLoadTester.make_request`

The aiohttp transport is an oracle giving each attempt's outcome: either a
response (status code, time until the response resolves, time to consume the
body with `await response.text()`) or a raised exception (with its message and
the time until it is raised).  The wall clock (`time.perf_counter`) is
threaded explicitly; `asyncio.sleep(d)` advances it by exactly `d`. -/

/-- Outcome of one transport attempt (`session.get(self.url)`). -/
inductive AttemptResult where
  | success (status : Nat) (respTime bodyTime : ℚ)
  | failure (msg : String) (failTime : ℚ)
  deriving Repr, DecidableEq

/-- The message of the exception raised on the retry-exhaustion path:
`self.load_test_stats.error_set` does not exist (`LoadTestStats.__init__`
never defines it), so the line `self.load_test_stats.error_set.add(str(e))`
raises AttributeError. -/
def attributeErrorMsg : String :=
  "AttributeError: LoadTestStats object has no attribute error_set"

/-- Observable result of one `make_request` call: the aggregator state it
leaves behind, the number of attempts performed, the backoff sleeps it issued,
the latency it appended (if any), the exception escaping the coroutine (if
any), and the wall-clock time when it resolved. -/
structure RequestTrace where
  stats : LoadTestStats
  attempts : Nat
  waits : List ℚ
  recorded_latency : Option ℚ
  raised : Option String
  clock : ℚ
  deriving Repr, DecidableEq

/-- The `for attempt in range(self.retries)` loop of `make_request`, with
`remaining = self.retries - attempt` iterations left.  On a response, latency
is taken (`time.perf_counter() - start_time`) before the body is consumed,
then the body is read and the sample recorded under the stringified status.
On an exception: if this is not the last allowed attempt, sleep
`2 ** attempt` and retry; otherwise record the sample under "error" and then
raise AttributeError at the nonexistent `error_set` attribute. -/
def make_request_loop (retries : Nat) (transport : Nat → AttemptResult)
    (start_time : ℚ) :
    Nat → Nat → ℚ → LoadTestStats → List ℚ → RequestTrace
  | 0, attempt, clock, stats, waits =>
    { stats := stats, attempts := attempt, waits := waits,
      recorded_latency := none, raised := none, clock := clock }
  | remaining + 1, attempt, clock, stats, waits =>
    match transport attempt with
    | .success status respTime bodyTime =>
      let latency := clock + respTime - start_time
      { stats := stats.add_result (toString status) latency
        attempts := attempt + 1
        waits := waits
        recorded_latency := some latency
        raised := none
        clock := clock + respTime + bodyTime }
    | .failure _ failTime =>
      if attempt < retries - 1 then
        make_request_loop retries transport start_time remaining (attempt + 1)
          (clock + failTime + 2 ^ attempt) stats (waits ++ [(2 : ℚ) ^ attempt])
      else
        { stats := stats.add_result "error" (clock + failTime - start_time)
          attempts := attempt + 1
          waits := waits
          recorded_latency := some (clock + failTime - start_time)
          raised := some attributeErrorMsg
          clock := clock + failTime }

/-- `HTTPLoadTester.make_request`: `start_time = time.perf_counter()` is taken
once, before the first attempt. -/
def make_request (retries : Nat) (transport : Nat → AttemptResult)
    (start_time : ℚ) (stats : LoadTestStats) : RequestTrace :=
  make_request_loop retries transport start_time retries 0 start_time stats []

/-- Sum of `f (a) + f (a+1) + ... + f (a+n-1)`. -/
def sumFrom (f : Nat → ℚ) (a : Nat) : Nat → ℚ
  | 0 => 0
  | n + 1 => f a + sumFrom f (a + 1) n

/-- The exponential backoff waits issued starting at attempt index `a`:
`[2^a, 2^(a+1), ...]` (`n` of them). -/
def backoffWaits (a : Nat) : Nat → List ℚ
  | 0 => []
  | n + 1 => (2 : ℚ) ^ a :: backoffWaits (a + 1) n

lemma backoffWaits_eq_map (n : Nat) : ∀ a,
    backoffWaits a n = (List.range n).map fun i => (2 : ℚ) ^ (a + i) := by
  induction n with
  | zero => intro a; simp [backoffWaits]
  | succ n ih =>
    intro a
    rw [List.range_succ_eq_map, List.map_cons]
    simp only [backoffWaits, ih (a + 1), List.map_map]
    congr 1
    norm_num
    intro i _
    omega

lemma make_request_loop_all_fail (retries : Nat) (transport : Nat → AttemptResult)
    (msgf : Nat → String) (ftf : Nat → ℚ) (t0 : ℚ)
    (hfail : ∀ i, transport i = .failure (msgf i) (ftf i)) :
    ∀ remaining attempt clock stats waits, 1 ≤ remaining →
      attempt + remaining = retries →
      make_request_loop retries transport t0 remaining attempt clock stats waits =
        { stats := stats.add_result "error"
            (clock + sumFrom ftf attempt remaining
              + (backoffWaits attempt (remaining - 1)).sum - t0)
          attempts := retries
          waits := waits ++ backoffWaits attempt (remaining - 1)
          recorded_latency := some (clock + sumFrom ftf attempt remaining
            + (backoffWaits attempt (remaining - 1)).sum - t0)
          raised := some attributeErrorMsg
          clock := clock + sumFrom ftf attempt remaining
            + (backoffWaits attempt (remaining - 1)).sum } := by
  intro remaining
  induction remaining with
  | zero => intro attempt clock stats waits h1 h2; exact absurd h1 (by omega)
  | succ n ih =>
    intro attempt clock stats waits h1 h2
    by_cases hmid : attempt < retries - 1
    · have hn1 : 1 ≤ n := by omega
      have hrec := ih (attempt + 1) (clock + ftf attempt + 2 ^ attempt) stats
        (waits ++ [(2 : ℚ) ^ attempt]) hn1 (by omega)
      have hn : n - 1 + 1 = n := by omega
      have hsum : sumFrom ftf attempt (n + 1)
          = ftf attempt + sumFrom ftf (attempt + 1) n := rfl
      have hwaits : backoffWaits attempt n
          = (2 : ℚ) ^ attempt :: backoffWaits (attempt + 1) (n - 1) := by
        conv_lhs => rw [← hn]
        rfl
      have hlat : clock + ftf attempt + 2 ^ attempt + sumFrom ftf (attempt + 1) n
          + (backoffWaits (attempt + 1) (n - 1)).sum - t0
          = clock + sumFrom ftf attempt (n + 1)
            + (backoffWaits attempt n).sum - t0 := by
        rw [hsum, hwaits, List.sum_cons]
        ring
      have hclock : clock + ftf attempt + 2 ^ attempt + sumFrom ftf (attempt + 1) n
          + (backoffWaits (attempt + 1) (n - 1)).sum
          = clock + sumFrom ftf attempt (n + 1)
            + (backoffWaits attempt n).sum := by
        rw [hsum, hwaits, List.sum_cons]
        ring
      have hwa : (waits ++ [(2 : ℚ) ^ attempt]) ++ backoffWaits (attempt + 1) (n - 1)
          = waits ++ backoffWaits attempt n := by
        rw [hwaits]
        simp
      simp only [make_request_loop]
      rw [hfail attempt]
      simp only [hmid, if_true]
      rw [hrec]
      simp only [Nat.add_sub_cancel]
      rw [hlat, hclock, hwa]
    · have hn0 : n = 0 := by omega
      subst hn0
      have hattempt : attempt + 1 = retries := by omega
      simp [make_request_loop, hfail attempt, hmid, sumFrom, backoffWaits,
        hattempt]

lemma make_request_loop_success_at (retries K : Nat)
    (transport : Nat → AttemptResult) (msgf : Nat → String) (ftf : Nat → ℚ)
    (status : Nat) (respTime bodyTime : ℚ) (t0 : ℚ)
    (hK : K < retries)
    (hfail : ∀ i, i < K → transport i = .failure (msgf i) (ftf i))
    (hsucc : transport K = .success status respTime bodyTime) :
    ∀ remaining attempt clock stats waits, attempt ≤ K →
      attempt + remaining = retries →
      make_request_loop retries transport t0 remaining attempt clock stats waits =
        { stats := stats.add_result (toString status)
            (clock + sumFrom ftf attempt (K - attempt)
              + (backoffWaits attempt (K - attempt)).sum + respTime - t0)
          attempts := K + 1
          waits := waits ++ backoffWaits attempt (K - attempt)
          recorded_latency := some (clock + sumFrom ftf attempt (K - attempt)
            + (backoffWaits attempt (K - attempt)).sum + respTime - t0)
          raised := none
          clock := clock + sumFrom ftf attempt (K - attempt)
            + (backoffWaits attempt (K - attempt)).sum + respTime + bodyTime } := by
  intro remaining
  induction remaining with
  | zero => intro attempt clock stats waits h1 h2; exact absurd h2 (by omega)
  | succ n ih =>
    intro attempt clock stats waits h1 h2
    rcases Nat.lt_or_ge attempt K with hlt | hge
    · have hmid : attempt < retries - 1 := by omega
      have hrec := ih (attempt + 1) (clock + ftf attempt + 2 ^ attempt) stats
        (waits ++ [(2 : ℚ) ^ attempt]) (by omega) (by omega)
      have hKA : K - attempt = (K - (attempt + 1)) + 1 := by omega
      have hsum : sumFrom ftf attempt ((K - (attempt + 1)) + 1)
          = ftf attempt + sumFrom ftf (attempt + 1) (K - (attempt + 1)) := rfl
      have hwaits : backoffWaits attempt ((K - (attempt + 1)) + 1)
          = (2 : ℚ) ^ attempt :: backoffWaits (attempt + 1) (K - (attempt + 1)) := rfl
      have hlat : clock + ftf attempt + 2 ^ attempt
          + sumFrom ftf (attempt + 1) (K - (attempt + 1))
          + (backoffWaits (attempt + 1) (K - (attempt + 1))).sum + respTime - t0
          = clock + sumFrom ftf attempt ((K - (attempt + 1)) + 1)
            + (backoffWaits attempt ((K - (attempt + 1)) + 1)).sum + respTime - t0 := by
        rw [hsum, hwaits, List.sum_cons]; ring
      have hclock : clock + ftf attempt + 2 ^ attempt
          + sumFrom ftf (attempt + 1) (K - (attempt + 1))
          + (backoffWaits (attempt + 1) (K - (attempt + 1))).sum + respTime + bodyTime
          = clock + sumFrom ftf attempt ((K - (attempt + 1)) + 1)
            + (backoffWaits attempt ((K - (attempt + 1)) + 1)).sum + respTime
            + bodyTime := by
        rw [hsum, hwaits, List.sum_cons]; ring
      have hwa : (waits ++ [(2 : ℚ) ^ attempt])
            ++ backoffWaits (attempt + 1) (K - (attempt + 1))
          = waits ++ backoffWaits attempt ((K - (attempt + 1)) + 1) := by
        rw [hwaits]; simp
      simp only [make_request_loop, hfail attempt hlt, hmid, if_true, hrec, hKA]
      rw [hlat, hclock, hwa]
    · have heq : attempt = K := by omega
      subst heq
      simp [make_request_loop, hsucc, sumFrom, backoffWaits]

/-- A transport that raises on every attempt (e.g. a connection error). -/
def alwaysFailTransport : Nat → AttemptResult :=
  fun _ => .failure "Connection error" 1

/-- A transport that raises on the first two attempts and then returns a
200 response. -/
def failTwiceTransport : Nat → AttemptResult :=
  fun i => if i < 2 then .failure "Connection error" 1 else .success 200 1 1

/-- A transport that responds immediately (after 1s) with a body that takes
5s to download. -/
def bodyHeavyTransport : Nat → AttemptResult :=
  fun _ => .success 200 1 5

/-- Claim C2 (refuted — code bug): on the retry-exhaustion path,
`make_request` appends the "error" sample and then evaluates
`self.load_test_stats.error_set`, an attribute `LoadTestStats.__init__`
never defines, so an AttributeError escapes the executor.  Evaluated at the
failing input: retries = 1 and a transport failing on every attempt.  (The
repo's own test `test_make_request_error` expects this call to return
normally with the "error" sample recorded.) -/
theorem C2_exhaustion_escapes_executor :
    (make_request 1 alwaysFailTransport 0 LoadTestStats.init).raised
        = some attributeErrorMsg ∧
    (make_request 1 alwaysFailTransport 0 LoadTestStats.init).stats.results
        = [("error", [1])] ∧
    (make_request 5 alwaysFailTransport 0 LoadTestStats.init).raised
        = some attributeErrorMsg := by
  norm_num [make_request, make_request_loop, alwaysFailTransport,
    LoadTestStats.add_result, LoadTestStats.init, appendSample]

/-- Claim C4: with retry budget N ≥ 1, a transport failing on every attempt
yields exactly N attempts, the classification "error", and backoff waits
2^0, ..., 2^(N-2) — none after the final (exhausting) attempt; a transport
failing exactly K < N times and then succeeding yields the stringified
success status after K+1 attempts with exactly K backoff waits, the i-th
(i from 0) lasting 2^i seconds. -/
theorem C4_retry_attempts_and_backoff
    (N : Nat) (t0 : ℚ) (s1 s2 : LoadTestStats)
    (tA : Nat → AttemptResult) (msgA : Nat → String) (ftA : Nat → ℚ)
    (tB : Nat → AttemptResult) (msgB : Nat → String) (ftB : Nat → ℚ)
    (K status : Nat) (respTime bodyTime : ℚ)
    (hN : 1 ≤ N)
    (hA : ∀ i, tA i = .failure (msgA i) (ftA i))
    (hK : K < N)
    (hBf : ∀ i, i < K → tB i = .failure (msgB i) (ftB i))
    (hBs : tB K = .success status respTime bodyTime) :
    ((make_request N tA t0 s1).attempts = N ∧
      (make_request N tA t0 s1).stats
        = s1.add_result "error"
            (sumFrom ftA 0 N + (backoffWaits 0 (N - 1)).sum) ∧
      (make_request N tA t0 s1).waits
        = (List.range (N - 1)).map fun i => (2 : ℚ) ^ i) ∧
    ((make_request N tB t0 s2).attempts = K + 1 ∧
      (make_request N tB t0 s2).stats
        = s2.add_result (toString status)
            (sumFrom ftB 0 K + (backoffWaits 0 K).sum + respTime) ∧
      (make_request N tB t0 s2).waits
        = (List.range K).map fun i => (2 : ℚ) ^ i) := by
  have hA2 := make_request_loop_all_fail N tA msgA ftA t0 hA N 0 t0 s1 []
    hN (by omega)
  have hB2 := make_request_loop_success_at N K tB msgB ftB status respTime
    bodyTime t0 hK hBf hBs N 0 t0 s2 [] (by omega) (by omega)
  simp only [Nat.sub_zero] at hB2
  constructor
  · refine ⟨?_, ?_, ?_⟩
    · simp only [make_request, hA2]
    · simp only [make_request, hA2]
      congr 1
      ring
    · simp only [make_request, hA2, backoffWaits_eq_map]
      simp
  · refine ⟨?_, ?_, ?_⟩
    · simp only [make_request, hB2]
    · simp only [make_request, hB2]
      congr 1
      ring
    · simp only [make_request, hB2, backoffWaits_eq_map]
      simp

/-- Witness for C4 at N = 3, K = 2: the always-failing transport takes 3
attempts with waits [1, 2]; the fail-twice transport records status "200"
after 3 attempts with waits [1, 2]. -/
theorem C4_retry_attempts_and_backoff_witness :
    (1 ≤ 3 ∧ 2 < 3) ∧
    (((make_request 3 alwaysFailTransport 0 LoadTestStats.init).attempts = 3 ∧
      (make_request 3 alwaysFailTransport 0 LoadTestStats.init).stats
        = LoadTestStats.init.add_result "error"
            (sumFrom (fun _ => 1) 0 3 + (backoffWaits 0 (3 - 1)).sum) ∧
      (make_request 3 alwaysFailTransport 0 LoadTestStats.init).waits
        = (List.range (3 - 1)).map fun i => (2 : ℚ) ^ i) ∧
    ((make_request 3 failTwiceTransport 0 LoadTestStats.init).attempts = 2 + 1 ∧
      (make_request 3 failTwiceTransport 0 LoadTestStats.init).stats
        = LoadTestStats.init.add_result (toString 200)
            (sumFrom (fun _ => 1) 0 2 + (backoffWaits 0 2).sum + 1) ∧
      (make_request 3 failTwiceTransport 0 LoadTestStats.init).waits
        = (List.range 2).map fun i => (2 : ℚ) ^ i)) :=
  ⟨⟨by norm_num, by norm_num⟩,
    C4_retry_attempts_and_backoff 3 0 LoadTestStats.init LoadTestStats.init
      alwaysFailTransport (fun _ => "Connection error") (fun _ => 1)
      failTwiceTransport (fun _ => "Connection error") (fun _ => 1)
      2 200 1 1 (by norm_num) (fun i => rfl) (by norm_num)
      (fun i hi => by simp [failTwiceTransport, hi])
      (by simp [failTwiceTransport])⟩

/-- Claim C5 counterexample: at retries = 1 with a transport whose response
resolves after 1s and whose body takes 5s to consume, the recorded latency is
1 while the executor only resolves at clock 6 — so the latency measurement
point is NOT after the body has been consumed and body transfer time is NOT
included, contrary to the claim. -/
theorem C5_latency_taken_before_body_counterexample :
    (make_request 1 bodyHeavyTransport 0 LoadTestStats.init).recorded_latency
        = some 1 ∧
    (make_request 1 bodyHeavyTransport 0 LoadTestStats.init).clock = 6 ∧
    (1 : ℚ) ≠ 6 := by
  norm_num [make_request, make_request_loop, bodyHeavyTransport]

/-- Claim C5 (amended): the recorded latency is measured from the start of
the first attempt — it spans the entire retry sequence (failure times and
backoff waits included) for finally-failed and finally-successful requests
alike — but on a successful response it is taken when the response resolves,
before `await response.text()` consumes the body: body transfer time is
excluded, and the executor only resolves `bodyTime` after the measurement
point. -/
theorem C5_latency_from_first_attempt_excludes_body
    (N : Nat) (t0 : ℚ) (s1 s2 : LoadTestStats)
    (tA : Nat → AttemptResult) (msgA : Nat → String) (ftA : Nat → ℚ)
    (tB : Nat → AttemptResult) (msgB : Nat → String) (ftB : Nat → ℚ)
    (K status : Nat) (respTime bodyTime : ℚ)
    (hN : 1 ≤ N)
    (hA : ∀ i, tA i = .failure (msgA i) (ftA i))
    (hK : K < N)
    (hBf : ∀ i, i < K → tB i = .failure (msgB i) (ftB i))
    (hBs : tB K = .success status respTime bodyTime) :
    ((make_request N tA t0 s1).recorded_latency
        = some (sumFrom ftA 0 N + (backoffWaits 0 (N - 1)).sum) ∧
      (make_request N tA t0 s1).clock
        = t0 + (sumFrom ftA 0 N + (backoffWaits 0 (N - 1)).sum)) ∧
    ((make_request N tB t0 s2).recorded_latency
        = some (sumFrom ftB 0 K + (backoffWaits 0 K).sum + respTime) ∧
      (make_request N tB t0 s2).clock
        = t0 + (sumFrom ftB 0 K + (backoffWaits 0 K).sum + respTime)
          + bodyTime) := by
  have hA2 := make_request_loop_all_fail N tA msgA ftA t0 hA N 0 t0 s1 []
    hN (by omega)
  have hB2 := make_request_loop_success_at N K tB msgB ftB status respTime
    bodyTime t0 hK hBf hBs N 0 t0 s2 [] (by omega) (by omega)
  simp only [Nat.sub_zero] at hB2
  constructor
  · constructor
    · simp only [make_request, hA2]
      congr 2
      ring
    · simp only [make_request, hA2]
      ring
  · constructor
    · simp only [make_request, hB2]
      congr 2
      ring
    · simp only [make_request, hB2]
      ring

/-! ## Rate configuration: the head of `HTTPLoadTester.generate_load` -/

/-- Python `qps or self.qps` on Optional[int] truthiness: None and 0 are
falsy, every other int is truthy. -/
def effectiveQps (qps selfQps : Option Int) : Option Int :=
  match qps with
  | some q => if q ≠ 0 then some q else selfQps
  | none => selfQps

/-- The configuration prelude of `generate_load`, which runs before any
request is scheduled: `qps = qps or self.qps`; `if qps is None: raise
ValueError(...)`; and later `interval = 1 / qps`, which raises
ZeroDivisionError when the effective qps is the integer 0. -/
def generate_load_setup (qps selfQps : Option Int) : Except String ℚ :=
  match effectiveQps qps selfQps with
  | none =>
    .error "ValueError: QPS must be specified either in the constructor or as a method argument"
  | some q =>
    if q = 0 then .error "ZeroDivisionError: division by zero"
    else .ok (1 / (q : ℚ))

/-- Claim C6 (refuted in part — code bug): with no per-call rate and no
configured default, `generate_load` raises the descriptive ValueError before
any request is scheduled (first conjunct holds).  But that is not the only
condition terminating a run: a request that exhausts its retry budget raises
AttributeError at the undefined `error_set` attribute, and `generate_load`
awaits its tasks with `asyncio.gather` without `return_exceptions`, so the
exception propagates and aborts the run (second conjunct exhibits the
escaping exception at the failing input). -/
theorem C6_missing_rate_fatal_but_request_failure_aborts :
    generate_load_setup none none
        = .error "ValueError: QPS must be specified either in the constructor or as a method argument" ∧
    (make_request 2 alwaysFailTransport 0 LoadTestStats.init).raised ≠ none := by
  constructor
  · rfl
  · norm_num [make_request, make_request_loop, alwaysFailTransport]
    simp

/-! ## The breaking-point binary search: `HTTPLoadTester.find_breaking_point`

`run_test` abstracts `await self.run_test(duration, mid)`: it returns the
finalized `(error_rate, mean_latency)` of a full load run at the given rate.
The loop also counts how many times `run_test` is invoked. -/

/-- The `while low <= high` loop of `find_breaking_point`:
`mid = (low + high) // 2` (written inline below); accept when
`error_rate <= max_error_rate and mean_latency <= max_latency`, recording
`best_qps = mid` and searching up, else searching down.  Returns
(best_qps, number of run_test invocations). -/
def find_breaking_point_loop (run_test : Int → ℚ × ℚ)
    (max_error_rate max_latency : ℚ) (low high best_qps : Int) : Int × Nat :=
  if h : low ≤ high then
    if (run_test ((low + high) / 2)).1 ≤ max_error_rate ∧
        (run_test ((low + high) / 2)).2 ≤ max_latency then
      ((find_breaking_point_loop run_test max_error_rate max_latency
          ((low + high) / 2 + 1) high ((low + high) / 2)).1,
        (find_breaking_point_loop run_test max_error_rate max_latency
          ((low + high) / 2 + 1) high ((low + high) / 2)).2 + 1)
    else
      ((find_breaking_point_loop run_test max_error_rate max_latency
          low ((low + high) / 2 - 1) best_qps).1,
        (find_breaking_point_loop run_test max_error_rate max_latency
          low ((low + high) / 2 - 1) best_qps).2 + 1)
  else (best_qps, 0)
termination_by (high + 1 - low).toNat
decreasing_by
  · simp_wf
    omega
  · simp_wf
    omega

/-- `find_breaking_point`: the loop starts at `low = 1, high = max_qps,
best_qps = 0`; after the loop, one confirmation run at `best_qps` is made
when `best_qps > 0` (it only refreshes the printed stats), and `best_qps`
is returned. -/
def find_breaking_point (run_test : Int → ℚ × ℚ)
    (max_error_rate max_latency : ℚ) (max_qps : Int) : Int × Nat :=
  let r := find_breaking_point_loop run_test max_error_rate max_latency 1 max_qps 0
  if 0 < r.1 then (r.1, r.2 + 1) else r

lemma find_breaking_point_loop_exit (run_test : Int → ℚ × ℚ)
    (maxER maxLat : ℚ) (low high best : Int) (h : ¬ low ≤ high) :
    find_breaking_point_loop run_test maxER maxLat low high best = (best, 0) := by
  rw [find_breaking_point_loop]
  rw [dif_neg h]

lemma find_breaking_point_loop_ladder (run_test : Int → ℚ × ℚ)
    (maxER maxLat : ℚ) (maxQ T : Int)
    (hacc : ∀ r : Int, 1 ≤ r → r ≤ maxQ →
      (((run_test r).1 ≤ maxER ∧ (run_test r).2 ≤ maxLat) ↔ r ≤ T)) :
    ∀ n (low high best : Int), (high + 1 - low).toNat = n →
      1 ≤ low → high ≤ maxQ → low = best + 1 → best ≤ T →
      (T ≤ high ∨ best = T) →
      (find_breaking_point_loop run_test maxER maxLat low high best).1 = T := by
  intro n
  induction n using Nat.strong_induction_on with
  | _ n ih =>
    intro low high best hn h1 h2 h3 h4 h5
    rw [find_breaking_point_loop]
    by_cases hlh : low ≤ high
    · rw [dif_pos hlh]
      have hm1 : low ≤ (low + high) / 2 := by omega
      have hm2 : (low + high) / 2 ≤ high := by omega
      by_cases hT : (low + high) / 2 ≤ T
      · have haccm := (hacc ((low + high) / 2) (by omega) (by omega)).mpr hT
        rw [if_pos haccm]
        have hTh : T ≤ high := by
          rcases h5 with h | h
          · exact h
          · omega
        exact ih ((high + 1 - ((low + high) / 2 + 1)).toNat) (by omega)
          ((low + high) / 2 + 1) high ((low + high) / 2) rfl (by omega) h2 rfl
          hT (Or.inl hTh)
      · have haccm : ¬ ((run_test ((low + high) / 2)).1 ≤ maxER ∧
            (run_test ((low + high) / 2)).2 ≤ maxLat) := fun hc =>
          hT ((hacc ((low + high) / 2) (by omega) (by omega)).mp hc)
        rw [if_neg haccm]
        exact ih ((((low + high) / 2 - 1) + 1 - low).toNat) (by omega)
          low ((low + high) / 2 - 1) best rfl h1 (by omega) h3 h4
          (Or.inl (by omega))
    · rw [dif_neg hlh]
      rcases h5 with h | h
      · simp only
        omega
      · exact h

lemma find_breaking_point_loop_count (run_test : Int → ℚ × ℚ)
    (maxER maxLat : ℚ) :
    ∀ n (low high best : Int), (high + 1 - low).toNat = n →
      (find_breaking_point_loop run_test maxER maxLat low high best).2
        ≤ Nat.log 2 n + 1 := by
  intro n
  induction n using Nat.strong_induction_on with
  | _ n ih =>
    intro low high best hn
    rw [find_breaking_point_loop]
    by_cases hlh : low ≤ high
    · rw [dif_pos hlh]
      have hm1 : low ≤ (low + high) / 2 := by omega
      have hm2 : (low + high) / 2 ≤ high := by omega
      by_cases hc : (run_test ((low + high) / 2)).1 ≤ maxER ∧
          (run_test ((low + high) / 2)).2 ≤ maxLat
      · rw [if_pos hc]
        by_cases hz : (low + high) / 2 + 1 ≤ high
        · have hsn1 : 1 ≤ (high + 1 - ((low + high) / 2 + 1)).toNat := by omega
          have hhalf : (high + 1 - ((low + high) / 2 + 1)).toNat ≤ n / 2 := by
            omega
          have hn2 : 2 ≤ n := by omega
          have hsub := ih ((high + 1 - ((low + high) / 2 + 1)).toNat) (by omega)
            ((low + high) / 2 + 1) high ((low + high) / 2) rfl
          have hmono : Nat.log 2 ((high + 1 - ((low + high) / 2 + 1)).toNat)
              ≤ Nat.log 2 (n / 2) := Nat.log_mono_right hhalf
          have hdiv : Nat.log 2 (n / 2) = Nat.log 2 n - 1 := Nat.log_div_base 2 n
          have hpos : 0 < Nat.log 2 n := Nat.log_pos (by norm_num) hn2
          simp only
          omega
        · rw [find_breaking_point_loop_exit run_test maxER maxLat _ _ _ hz]
          simp only
          omega
      · rw [if_neg hc]
        by_cases hz : low ≤ (low + high) / 2 - 1
        · have hsn1 : 1 ≤ (((low + high) / 2 - 1) + 1 - low).toNat := by omega
          have hhalf : (((low + high) / 2 - 1) + 1 - low).toNat ≤ n / 2 := by
            omega
          have hn2 : 2 ≤ n := by omega
          have hsub := ih ((((low + high) / 2 - 1) + 1 - low).toNat) (by omega)
            low ((low + high) / 2 - 1) best rfl
          have hmono : Nat.log 2 ((((low + high) / 2 - 1) + 1 - low).toNat)
              ≤ Nat.log 2 (n / 2) := Nat.log_mono_right hhalf
          have hdiv : Nat.log 2 (n / 2) = Nat.log 2 n - 1 := Nat.log_div_base 2 n
          have hpos : 0 < Nat.log 2 n := Nat.log_pos (by norm_num) hn2
          simp only
          omega
        · rw [find_breaking_point_loop_exit run_test maxER maxLat _ _ _ hz]
          simp only
          omega
    · rw [dif_neg hlh]
      simp only
      omega

/-- Claim C3: for every max_qps ≥ 1 and a run function acceptable
(`error_rate <= max_error_rate and mean_latency <= max_latency`) exactly for
rates ≤ T with 0 ≤ T ≤ max_qps, the binary search over [1, max_qps] returns
exactly T — in particular 0 when every rate is unacceptable (T = 0) and
max_qps when every rate is acceptable (T = max_qps) — and the search loop
performs at most ceil(log2 max_qps) + 1 = Nat.clog 2 max_qps + 1 run
invocations.  (The reporting step afterwards re-runs once at `best_qps` when
it is positive; that confirmation run is outside the search the claim
describes and does not affect the returned value.) -/
theorem C3_breaking_point_binary_search (run_test : Int → ℚ × ℚ)
    (maxER maxLat : ℚ) (maxQ T : Int)
    (hmax : 1 ≤ maxQ) (hT0 : 0 ≤ T) (hTm : T ≤ maxQ)
    (hacc : ∀ r : Int, 1 ≤ r → r ≤ maxQ →
      (((run_test r).1 ≤ maxER ∧ (run_test r).2 ≤ maxLat) ↔ r ≤ T)) :
    (find_breaking_point run_test maxER maxLat maxQ).1 = T ∧
    (find_breaking_point_loop run_test maxER maxLat 1 maxQ 0).2
      ≤ Nat.clog 2 maxQ.toNat + 1 := by
  have hres := find_breaking_point_loop_ladder run_test maxER maxLat maxQ T hacc
    ((maxQ + 1 - 1).toNat) 1 maxQ 0 rfl (by omega) (by omega) (by omega) hT0
    (Or.inl hTm)
  constructor
  · simp only [find_breaking_point]
    split
    · exact hres
    · exact hres
  · have hcount := find_breaking_point_loop_count run_test maxER maxLat
      ((maxQ + 1 - 1).toNat) 1 maxQ 0 rfl
    have hlog : Nat.log 2 ((maxQ + 1 - 1).toNat) ≤ Nat.clog 2 maxQ.toNat := by
      have h1 : (maxQ + 1 - 1).toNat = maxQ.toNat := by omega
      rw [h1]
      exact Nat.log_le_clog 2 maxQ.toNat
    omega

/-- The synthetic run function of the spec's end-to-end scenario: acceptable
exactly for rates ≤ 91 (error rate and latency 0 below the threshold, 1
above). -/
def syntheticRun : Int → ℚ × ℚ :=
  fun r => if r ≤ 91 then (0, 0) else (1, 1)

/-- Witness for C3 at max_qps = 100, T = 91: the spec's end-to-end scenario;
the search returns 91 with at most clog2(100) + 1 = 8 loop runs. -/
theorem C3_breaking_point_binary_search_witness :
    ((1 : Int) ≤ 100 ∧ (0 : Int) ≤ 91 ∧ (91 : Int) ≤ 100) ∧
    ((find_breaking_point syntheticRun (1/100) (1/2) 100).1 = 91 ∧
      (find_breaking_point_loop syntheticRun (1/100) (1/2) 1 100 0).2
        ≤ Nat.clog 2 (100 : Int).toNat + 1) :=
  ⟨⟨by norm_num, by norm_num, by norm_num⟩,
    C3_breaking_point_binary_search syntheticRun (1/100) (1/2) 100 91
      (by norm_num) (by norm_num) (by norm_num)
      (fun r h1 h2 => by
        by_cases hr : r ≤ 91 <;> simp [syntheticRun, hr] <;> norm_num)⟩

/-- Witness for C5 at N = 3, K = 2: the always-failing transport records
latency 1+1+1 + (1+2) = 6 (the full retry span); the fail-twice transport
records latency (1+1) + (1+2) + 1 = 6 and resolves at clock 0 + 6 + 1. -/
theorem C5_latency_from_first_attempt_excludes_body_witness :
    (1 ≤ 3 ∧ 2 < 3) ∧
    (((make_request 3 alwaysFailTransport 0 LoadTestStats.init).recorded_latency
        = some (sumFrom (fun _ => 1) 0 3 + (backoffWaits 0 (3 - 1)).sum) ∧
      (make_request 3 alwaysFailTransport 0 LoadTestStats.init).clock
        = 0 + (sumFrom (fun _ => 1) 0 3 + (backoffWaits 0 (3 - 1)).sum)) ∧
    ((make_request 3 failTwiceTransport 0 LoadTestStats.init).recorded_latency
        = some (sumFrom (fun _ => 1) 0 2 + (backoffWaits 0 2).sum + 1) ∧
      (make_request 3 failTwiceTransport 0 LoadTestStats.init).clock
        = 0 + (sumFrom (fun _ => 1) 0 2 + (backoffWaits 0 2).sum + 1) + 1)) :=
  ⟨⟨by norm_num, by norm_num⟩,
    C5_latency_from_first_attempt_excludes_body 3 0 LoadTestStats.init
      LoadTestStats.init
      alwaysFailTransport (fun _ => "Connection error") (fun _ => 1)
      failTwiceTransport (fun _ => "Connection error") (fun _ => 1)
      2 200 1 1 (by norm_num) (fun i => rfl) (by norm_num)
      (fun i hi => by simp [failTwiceTransport, hi])
      (by simp [failTwiceTransport])⟩

/-! ## The rate pacer: the scheduling loop of `generate_load`

Idealized-clock semantics: `time.time()` reads the model clock; `await
asyncio.sleep(d)` advances it by exactly `d` (`sleep(0)` just yields, no time
passes); everything else is instantaneous.  `asyncio.create_task` launches a
request without awaiting it, so request latencies never enter the loop state:
the launch count below cannot depend on them. -/

/-- State of the scheduling loop: current time, the `next_request_time`
cursor, how many requests have been launched, and whether the
`while time.time() < end_time` loop has exited. -/
structure PacerState where
  now : ℚ
  next_request_time : ℚ
  launched : Nat
  closed : Bool
  deriving Repr, DecidableEq

/-- One iteration of the scheduling loop of `generate_load`: if the window
has ended the loop exits; otherwise, when `current_time >=
next_request_time` (and, per the inner guard, still inside the window) a
task is launched and the cursor advances by `interval`, then `sleep(0)`
yields without advancing time; otherwise the loop sleeps exactly
`next_request_time - current_time`. -/
def pacer_step (end_time interval : ℚ) (s : PacerState) : PacerState :=
  if s.closed then s
  else if s.now < end_time then
    if s.next_request_time ≤ s.now then
      if s.now < end_time then
        { s with launched := s.launched + 1,
                 next_request_time := s.next_request_time + interval }
      else s
    else { s with now := s.next_request_time }
  else { s with closed := true }

/-- The scheduling loop of `generate_load`, iterated `fuel` times from
`start_time = time.time()`, `end_time = start_time + duration`,
`interval = 1 / qps`, `next_request_time = start_time` (the exited state is
absorbing, so any sufficiently large fuel gives the loop's final state). -/
def generate_load_pacer (start : ℚ) (qps duration : Nat) (fuel : Nat) :
    PacerState :=
  (pacer_step (start + duration) (1 / (qps : ℚ)))^[fuel]
    { now := start, next_request_time := start, launched := 0, closed := false }

lemma pacer_step_closed (e i : ℚ) (s : PacerState) (h : s.closed = true) :
    pacer_step e i s = s := by
  simp [pacer_step, h]

lemma pacer_iterate_closed (e i : ℚ) (s : PacerState) (h : s.closed = true) :
    ∀ m, (pacer_step e i)^[m] s = s := by
  intro m
  induction m with
  | zero => rfl
  | succ m ihm => rw [Function.iterate_succ_apply, pacer_step_closed e i s h, ihm]

lemma pacer_tick (start : ℚ) (R D : Nat) (hR : 1 ≤ R) (k : Nat)
    (hk : k < D * R) :
    (pacer_step (start + (D : ℚ)) (1 / (R : ℚ)))^[2]
        { now := start + (k : ℚ) * (1 / (R : ℚ)),
          next_request_time := start + (k : ℚ) * (1 / (R : ℚ)),
          launched := k, closed := false }
      = { now := start + ((k : ℚ) + 1) * (1 / (R : ℚ)),
          next_request_time := start + ((k : ℚ) + 1) * (1 / (R : ℚ)),
          launched := k + 1, closed := false } := by
  have hRpos : (0 : ℚ) < (R : ℚ) := by
    have : (0 : ℚ) < (1 : ℚ) := one_pos
    calc (0 : ℚ) < 1 := one_pos
      _ ≤ (R : ℚ) := by exact_mod_cast hR
  have hRinv : (0 : ℚ) < ((R : ℚ))⁻¹ := by positivity
  have hwin2 : (k : ℚ) * ((R : ℚ))⁻¹ < (D : ℚ) := by
    have hkDR : (k : ℚ) < (D : ℚ) * (R : ℚ) := by exact_mod_cast hk
    rw [← div_eq_mul_inv, div_lt_iff hRpos]
    exact hkDR
  have hnosleep2 : ¬ (((k : ℚ) + 1) * ((R : ℚ))⁻¹ ≤ (k : ℚ) * ((R : ℚ))⁻¹) := by
    have hexp2 : ((k : ℚ) + 1) * ((R : ℚ))⁻¹
        = (k : ℚ) * ((R : ℚ))⁻¹ + ((R : ℚ))⁻¹ := by ring
    rw [hexp2]
    linarith
  have hcursor2 : start + (k : ℚ) * ((R : ℚ))⁻¹ + ((R : ℚ))⁻¹
      = start + ((k : ℚ) + 1) * ((R : ℚ))⁻¹ := by ring
  have hstep1 : pacer_step (start + (D : ℚ)) (1 / (R : ℚ))
      { now := start + (k : ℚ) * (1 / (R : ℚ)),
        next_request_time := start + (k : ℚ) * (1 / (R : ℚ)),
        launched := k, closed := false }
      = { now := start + (k : ℚ) * (1 / (R : ℚ)),
          next_request_time := start + ((k : ℚ) + 1) * (1 / (R : ℚ)),
          launched := k + 1, closed := false } := by
    simp [pacer_step, hwin2, hcursor2]
  have hstep2 : pacer_step (start + (D : ℚ)) (1 / (R : ℚ))
      { now := start + (k : ℚ) * (1 / (R : ℚ)),
        next_request_time := start + ((k : ℚ) + 1) * (1 / (R : ℚ)),
        launched := k + 1, closed := false }
      = { now := start + ((k : ℚ) + 1) * (1 / (R : ℚ)),
          next_request_time := start + ((k : ℚ) + 1) * (1 / (R : ℚ)),
          launched := k + 1, closed := false } := by
    simp [pacer_step, hwin2, hnosleep2]
  rw [Function.iterate_succ_apply, Function.iterate_one, hstep1, hstep2]

lemma pacer_progress (start : ℚ) (R D : Nat) (hR : 1 ≤ R) :
    ∀ k, k ≤ D * R →
      (pacer_step (start + (D : ℚ)) (1 / (R : ℚ)))^[2 * k]
          { now := start, next_request_time := start, launched := 0,
            closed := false }
        = { now := start + (k : ℚ) * (1 / (R : ℚ)),
            next_request_time := start + (k : ℚ) * (1 / (R : ℚ)),
            launched := k, closed := false } := by
  intro k
  induction k with
  | zero => intro _; norm_num
  | succ k ihk =>
    intro hk
    have hstep : 2 * (k + 1) = 2 + 2 * k := by ring
    rw [hstep, Function.iterate_add_apply, ihk (by omega),
      pacer_tick start R D hR k (by omega)]
    norm_num

/-- Claim C9: under the idealized clock, the scheduling loop of
`generate_load` is deterministic and launches exactly `D * R` requests
(`= floor(D * R)` for integer rate R ≥ 1 and duration D ≥ 1) before exiting,
for every sufficient iteration budget.  The loop state contains no request
latency at all — `asyncio.create_task` launches without awaiting — so slow
request completions cannot delay any scheduled launch. -/
theorem C9_pacer_launches_duration_times_rate (start : ℚ) (R D fuel : Nat)
    (hR : 1 ≤ R) (hD : 1 ≤ D) (hfuel : 2 * (D * R) + 1 ≤ fuel) :
    (generate_load_pacer start R D fuel).launched = D * R ∧
    (generate_load_pacer start R D fuel).closed = true := by
  have hRpos : (0 : ℚ) < (R : ℚ) := by
    calc (0 : ℚ) < 1 := one_pos
      _ ≤ (R : ℚ) := by exact_mod_cast hR
  have hend : ((D * R : Nat) : ℚ) * (1 / (R : ℚ)) = (D : ℚ) := by
    push_cast
    field_simp
  have hfull := pacer_progress start R D hR (D * R) (le_refl _)
  rw [hend] at hfull
  have hclose : pacer_step (start + (D : ℚ)) (1 / (R : ℚ))
      { now := start + (D : ℚ), next_request_time := start + (D : ℚ),
        launched := D * R, closed := false }
      = { now := start + (D : ℚ), next_request_time := start + (D : ℚ),
          launched := D * R, closed := true } := by
    rw [pacer_step]
    simp
  have hrest : fuel = (fuel - (2 * (D * R) + 1)) + 1 + 2 * (D * R) := by omega
  unfold generate_load_pacer
  rw [hrest, Function.iterate_add_apply, Function.iterate_add_apply, hfull,
    Function.iterate_one, hclose,
    pacer_iterate_closed _ _ _ rfl (fuel - (2 * (D * R) + 1))]
  exact ⟨rfl, rfl⟩

/-- Witness for C9 at start = 0, R = 2, D = 1, fuel = 5: the loop launches
exactly 2 requests and exits. -/
theorem C9_pacer_launches_duration_times_rate_witness :
    (1 ≤ 2 ∧ 1 ≤ 1 ∧ 2 * (1 * 2) + 1 ≤ 5) ∧
    ((generate_load_pacer 0 2 1 5).launched = 1 * 2 ∧
      (generate_load_pacer 0 2 1 5).closed = true) :=
  ⟨⟨by norm_num, by norm_num, by norm_num⟩,
    C9_pacer_launches_duration_times_rate 0 2 1 5 (by norm_num) (by norm_num)
      (by norm_num)⟩

end LoadTester
